import Mathlib

/-!
# node-gitteh: the index proxy (`src/index.cc`, `src/repository.h`)

A shallow embedding of `gitteh::Index`: the dual-mode `getEntry` operation
(synchronous call, or an eio job made of a worker step and a completion step),
the initial load of the proxy, and its destructor.

Every operation is a function from the state before to an `Outcome`: the value
returned, the state after, and the list of calls the body makes, in source
order.  The wrapped library (libgit2) is an oracle, `GitLib`, passed to every
step, so that the native index may differ from one step to the next.
-/

namespace Gitteh

/-- A native pointer (`git_index*`, `git_index_entry*`, `git_repository*`);
`Option Handle` is a pointer that may be `NULL`. -/
abbrev Handle := Nat

/-- The host values that reach `Index::GetEntry` and the completion handler. -/
inductive JsValue
  | undefined
  | null
  | int (n : Int)
  | function (id : Nat)
  | object (id : Nat)
  | error (message : String)
  | other
  deriving DecidableEq, Repr

namespace JsValue

/-- `Value::IsInt32`: a number with an integral value in the range of `int`. -/
def IsInt32 : JsValue → Bool
  | .int n => decide (-2147483648 ≤ n ∧ n ≤ 2147483647)
  | _ => false

/-- `Value::IsFunction`. -/
def IsFunction : JsValue → Bool
  | .function _ => true
  | _ => false

/-- A completion argument is empty when it is `null` or `undefined`. -/
def isEmpty : JsValue → Bool
  | .undefined => true
  | .null => true
  | _ => false

end JsValue

/-- What `ThrowException` raises at the call site. -/
inductive JsException
  | TypeError
  | Error (message : String)
  deriving DecidableEq, Repr

/-- `struct index_data` (index.cc:33).  `entryCount` is an `int`: it is held as
an integer in the range of `int`, and its one assignment (index.cc:179) goes
through `unsignedToInt`. -/
structure index_data where
  entryCount : Int
  deriving DecidableEq, Repr

/-- `struct entry_request` (index.cc:37).  `indexObj` is the one index proxy of
the state; `error` is never written. -/
structure entry_request where
  callback : Nat
  index : Int
  entry : Option Handle
  deriving DecidableEq, Repr

/-- The calls an operation makes, in the order the body makes them.
`lockRepository` and `unlockRepository` are the two methods declared at
repository.h:60; `TRIGGER_CALLBACK` is the body invoking the completion handler
with `(error, value)`; `factoryCallback` is the entry cache invoking a handler
that was handed to it by `asyncRequestObject`. -/
inductive Event
  | lockRepository
  | unlockRepository
  | git_index_get (index : Option Handle) (n : Int)
  | git_repository_index (repo : Handle)
  | git_index_open_bare (path : String)
  | git_index_read (index : Option Handle)
  | git_index_entrycount (index : Option Handle)
  | git_index_free (index : Option Handle)
  | notifyIndexDead
  | Ref
  | Unref
  | ev_ref
  | ev_unref
  | eio_custom (request : entry_request)
  | TRIGGER_CALLBACK (callback : Nat) (error value : JsValue)
  | callbackDispose (callback : Nat)
  | syncRequestObject (entry : Handle)
  | asyncRequestObject (entry : Handle) (callback : Nat)
  | factoryCallback (callback : Nat) (error value : JsValue)
  deriving DecidableEq, Repr

/-- The conversion of an `unsigned int` to `int` (32 bits, two's complement):
what the assignment `data->entryCount = git_index_entrycount(index_)` does to
the count. -/
def unsignedToInt (n : Nat) : Int :=
  if n % 4294967296 < 2147483648 then ((n % 4294967296 : Nat) : Int)
  else ((n % 4294967296 : Nat) : Int) - 4294967296

/-- The wrapped library, as seen through the calls of index.cc.  An out
parameter is the second component of the result (`none`: nothing written);
`git_index_entrycount` returns the library's `unsigned int` count. -/
structure GitLib where
  GIT_SUCCESS : Int
  GIT_EBAREINDEX : Int
  git_index_get : Option Handle → Int → Option Handle
  git_repository_index : Handle → Int × Option Handle
  git_index_open_bare : String → Int × Option Handle
  git_index_entrycount : Option Handle → Nat

/-- An entry proxy (`IndexEntry`): its identity and the native entry it wraps. -/
structure IndexEntry where
  id : Nat
  entry : Handle
  deriving DecidableEq, Repr

/-- Modelled from the spec: the per-index entry cache
`ObjectFactory<Index, IndexEntry, git_index_entry>` (object_factory.h is not
among the sources).  It maps a native handle to its proxy; "a lookup for an
already-resident handle always returns the same ProxyObject instance". -/
structure ObjectFactory where
  objects : List (Handle × Nat)
  nextId : Nat
  deriving DecidableEq, Repr

namespace ObjectFactory

/-- Modelled from the spec: `ObjectFactory::syncRequestObject`, the cache's
`resolve`: "if handle already maps to a live ProxyObject, return it unchanged
(identity preserved). Otherwise construct a new ProxyObject, register it under
handle".  Index.cc:107-108 dereferences the result unconditionally, so the
resolve of an entry has no failing path. -/
def syncRequestObject (f : ObjectFactory) (entry : Handle) : IndexEntry × ObjectFactory :=
  match f.objects.lookup entry with
  | some id => (⟨id, entry⟩, f)
  | none => (⟨f.nextId, entry⟩, { objects := (entry, f.nextId) :: f.objects, nextId := f.nextId + 1 })

/-- Modelled from the spec: `ObjectFactory::asyncRequestObject`, the cache's
asynchronous resolve: "the ResourceCache resolves/creates the proxy and the
completion handler fires", with `(null, proxy)` and once. -/
def asyncRequestObject (f : ObjectFactory) (entry : Handle) (callback : Nat) :
    ObjectFactory × List Event :=
  let r := f.syncRequestObject entry
  (r.2, [Event.factoryCallback callback JsValue.null (JsValue.object r.1.id)])

end ObjectFactory

/-- The owning `Repository` as index.cc uses it. -/
structure Repository where
  repo_ : Handle
  path_ : String
  deriving DecidableEq, Repr

/-- The index proxy and the part of the event loop its jobs live in.
`refs_` is the reference count of `ObjectWrap`; `lengthProperty` is the
read-only `entryCount` property of the host object; `queue` holds the requests
handed to `eio_custom` and not yet run, `finished` those whose worker step has
run; `released` holds once the native index behind `index_` has been released,
by `git_index_free` or with the root handle of the Session: from then on a
native call on `index_` touches freed memory (`callsNativeOnReleased`). -/
structure State where
  repository_ : Repository
  index_ : Option Handle
  entryCount_ : Int
  initError_ : Int
  refs_ : Nat
  lengthProperty : Option Int
  entryFactory_ : ObjectFactory
  evRefs : Nat
  queue : List entry_request
  finished : List entry_request
  released : Bool
  deriving DecidableEq, Repr

/-- The result of running one operation. -/
structure Outcome (α : Type) where
  ret : α
  state : State
  trace : List Event

/-- Modelled from the spec: the argument check `REQ_ARGS(N)` of gitteh.h (not
among the sources): "malformed call shape (wrong argument count/type). Always
surfaced synchronously and immediately". -/
def REQ_ARGS (n : Nat) (args : List JsValue) : Option JsException :=
  if args.length < n then some JsException.TypeError else none

/-- Modelled from the spec: the argument check `REQ_INT_ARG(I, VAR)` of
gitteh.h (not among the sources): argument `I` must be an integer that fits
the `int` it is stored in, else the call raises. -/
def REQ_INT_ARG (i : Nat) (args : List JsValue) : Except JsException Int :=
  match args[i]? with
  | some (JsValue.int n) =>
    if (JsValue.int n).IsInt32 then Except.ok n else Except.error JsException.TypeError
  | _ => Except.error JsException.TypeError

/-- Modelled from the spec: `HAS_CALLBACK_ARG` of gitteh.h (not among the
sources): the calling convention is "selected by whether a trailing completion
argument is supplied". -/
def HAS_CALLBACK_ARG (args : List JsValue) : Bool :=
  match args[args.length - 1]? with
  | some v => v.IsFunction
  | none => false

/-- Modelled from the spec: the argument check `REQ_FUN_ARG(I, VAR)` of
gitteh.h (not among the sources): argument `I` must be a function. -/
def REQ_FUN_ARG (i : Nat) (args : List JsValue) : Except JsException Nat :=
  match args[i]? with
  | some (JsValue.function id) => Except.ok id
  | _ => Except.error JsException.TypeError

/-- Modelled from the spec: `THROW_ERROR(msg)` of gitteh.h (not among the
sources): a failure of a synchronous call is raised "at the call site", as an
error that carries the message. -/
@[simp]
def THROW_ERROR (message : String) : JsException :=
  JsException.Error message

/-- Modelled from the spec: `TRIGGER_CALLBACK()` of gitteh.h (not among the
sources): it "invokes the supplied completion with `(error, proxy)` on the host
thread", here the two members of `callbackArgs`. -/
@[simp]
def TRIGGER_CALLBACK (callback : Nat) (callbackArgs : JsValue × JsValue) : Event :=
  Event.TRIGGER_CALLBACK callback callbackArgs.1 callbackArgs.2

namespace Index

/-- `Index::~Index` (index.cc:51). -/
def destructor (s : State) : Outcome Unit :=
  { ret := (),
    state := { s with released := true },
    trace := [Event.notifyIndexDead, Event.git_index_free s.index_] }

/-- `Index::GetEntry` (index.cc:76). -/
def GetEntry (git : GitLib) (s : State) (args : List JsValue) :
    Outcome (Except JsException JsValue) :=
  match REQ_ARGS 1 args with
  | some e => { ret := Except.error e, state := s, trace := [] }
  | none =>
    match REQ_INT_ARG 0 args with
    | Except.error e => { ret := Except.error e, state := s, trace := [] }
    | Except.ok indexArg =>
      if HAS_CALLBACK_ARG args then
        match REQ_FUN_ARG (args.length - 1) args with
        | Except.error e => { ret := Except.error e, state := s, trace := [] }
        | Except.ok callbackArg =>
          let request : entry_request :=
            { callback := callbackArg, index := indexArg, entry := none }
          { ret := Except.ok JsValue.undefined,
            state := { s with refs_ := s.refs_ + 1,
                              queue := s.queue ++ [request],
                              evRefs := s.evRefs + 1 },
            trace := [Event.Ref, Event.eio_custom request, Event.ev_ref] }
      else
        let entry := git.git_index_get s.index_ indexArg
        let locked := [Event.lockRepository, Event.git_index_get s.index_ indexArg,
          Event.unlockRepository]
        match entry with
        | none =>
          { ret := Except.error (THROW_ERROR "Invalid entry."), state := s,
            trace := locked }
        | some e =>
          let r := s.entryFactory_.syncRequestObject e
          { ret := Except.ok (JsValue.object r.1.id),
            state := { s with entryFactory_ := r.2 },
            trace := locked ++ [Event.syncRequestObject e] }

/-- `Index::EIO_GetEntry` (index.cc:112), the worker step: it fills the
request's `entry` and returns 0. -/
def EIO_GetEntry (git : GitLib) (s : State) (reqData : entry_request) :
    Outcome entry_request :=
  { ret := { reqData with entry := git.git_index_get s.index_ reqData.index },
    state := s,
    trace := [Event.lockRepository, Event.git_index_get s.index_ reqData.index,
      Event.unlockRepository] }

/-- `Index::EIO_AfterGetEntry` (index.cc:122), the completion step on the host
thread. -/
def EIO_AfterGetEntry (s : State) (reqData : entry_request) : Outcome Unit :=
  let s1 := { s with evRefs := s.evRefs - 1 }
  let s2 := { s1 with refs_ := s1.refs_ - 1 }
  match reqData.entry with
  | none =>
    { ret := (),
      state := s2,
      trace := [Event.ev_unref, Event.Unref,
        TRIGGER_CALLBACK reqData.callback
          (JsValue.error "Couldn't get index entry.", JsValue.null),
        Event.callbackDispose reqData.callback] }
  | some e =>
    let r := s2.entryFactory_.asyncRequestObject e reqData.callback
    { ret := (),
      state := { s2 with entryFactory_ := r.1 },
      trace := [Event.ev_unref, Event.Unref,
        Event.asyncRequestObject e reqData.callback] ++ r.2 }

/-- `Index::processInitData` (index.cc:149). -/
def processInitData (s : State) (data : Option index_data) : State :=
  match data with
  | some indexData =>
    { s with entryCount_ := indexData.entryCount,
             lengthProperty := some indexData.entryCount }
  | none => s

/-- `Index::loadInitData` (index.cc:161). -/
def loadInitData (git : GitLib) (s : State) : Outcome (Option index_data) :=
  let r1 := git.git_repository_index s.repository_.repo_
  let s1 := { s with initError_ := r1.1, index_ := r1.2.orElse (fun _ => s.index_) }
  let t1 := [Event.lockRepository, Event.git_repository_index s.repository_.repo_,
    Event.unlockRepository]
  let bare : State × List Event :=
    if s1.initError_ = git.GIT_EBAREINDEX then
      let r2 := git.git_index_open_bare s1.repository_.path_
      ({ s1 with initError_ := r2.1, index_ := r2.2.orElse (fun _ => s1.index_) },
        [Event.lockRepository, Event.git_index_open_bare s1.repository_.path_,
          Event.unlockRepository])
    else (s1, [])
  let s2 := bare.1
  if s2.initError_ ≠ git.GIT_SUCCESS then
    { ret := none, state := s2, trace := t1 ++ bare.2 }
  else
    let data : index_data :=
      { entryCount := unsignedToInt (git.git_index_entrycount s2.index_) }
    { ret := some data,
      state := s2,
      trace := t1 ++ bare.2 ++ [Event.lockRepository, Event.git_index_read s2.index_,
        Event.git_index_entrycount s2.index_, Event.unlockRepository] }

/-- What `eio_custom(EIO_GetEntry, EIO_PRI_DEFAULT, EIO_AfterGetEntry, request)`
arranges for one request: the worker step, then the completion step on the
request the worker filled.  The native index may differ between submission and
the worker step, hence the oracle is the one of the worker step. -/
def runJob (git : GitLib) (s : State) (request : entry_request) : Outcome Unit :=
  let w := EIO_GetEntry git s request
  let a := EIO_AfterGetEntry w.state w.ret
  { ret := (), state := a.state, trace := w.trace ++ a.trace }

end Index

/-- One getEntry operation of the index proxy: a call of `getEntry`, the worker
step of the `k`-th queued request, or the completion step of the `k`-th
finished request. -/
inductive Op
  | GetEntry (args : List JsValue)
  | EIO_GetEntry (k : Nat)
  | EIO_AfterGetEntry (k : Nat)

/-- Run one operation; a worker or completion step for a request that does not
exist does nothing. -/
def step (git : GitLib) (s : State) : Op → State × List Event
  | Op.GetEntry args =>
    let o := Index.GetEntry git s args
    (o.state, o.trace)
  | Op.EIO_GetEntry k =>
    match s.queue[k]? with
    | none => (s, [])
    | some request =>
      let o := Index.EIO_GetEntry git s request
      ({ o.state with queue := s.queue.eraseIdx k, finished := s.finished ++ [o.ret] },
        o.trace)
  | Op.EIO_AfterGetEntry k =>
    match s.finished[k]? with
    | none => (s, [])
    | some request =>
      let o := Index.EIO_AfterGetEntry { s with finished := s.finished.eraseIdx k } request
      (o.state, o.trace)

/-- Run a schedule of operations, each against its own view of the native
library. -/
def run (s : State) : List (GitLib × Op) → State × List Event
  | [] => (s, [])
  | (git, op) :: rest =>
    let r := step git s op
    let q := run r.1 rest
    (q.1, r.2 ++ q.2)

namespace Event

/-- A call into the native library (a `git_*` function). -/
def isNative : Event → Bool
  | git_index_get _ _ => true
  | git_repository_index _ => true
  | git_index_open_bare _ => true
  | git_index_read _ => true
  | git_index_entrycount _ => true
  | git_index_free _ => true
  | _ => false

/-- The completion handler `callback` is invoked. -/
def isInvocation (callback : Nat) : Event → Bool
  | TRIGGER_CALLBACK c _ _ => c == callback
  | factoryCallback c _ _ => c == callback
  | _ => false

/-- The body itself invokes the completion handler `callback`. -/
def isDirectTrigger (callback : Nat) : Event → Bool
  | TRIGGER_CALLBACK c _ _ => c == callback
  | _ => false

/-- The completion handler `callback` is handed to the entry cache. -/
def isHandOff (callback : Nat) : Event → Bool
  | asyncRequestObject _ c => c == callback
  | _ => false

/-- A native call on the index handle `h`. -/
def usesIndex (h : Option Handle) : Event → Bool
  | git_index_get index _ => index == h
  | git_index_read index => index == h
  | git_index_entrycount index => index == h
  | git_index_free index => index == h
  | _ => false

end Event

/-- The trace touches freed memory: the native index of the proxy has been
released and the trace calls the native library on its handle. -/
def callsNativeOnReleased (s : State) (trace : List Event) : Bool :=
  s.released && trace.any (Event.usesIndex s.index_)

/-- Follow the repository lock along a trace, from `held`: `none` when the lock
is taken while held or released while free, else the final state of the lock. -/
def lockRun : Bool → List Event → Option Bool
  | held, [] => some held
  | held, Event.lockRepository :: es => if held then none else lockRun true es
  | held, Event.unlockRepository :: es => if held then lockRun false es else none
  | held, _ :: es => lockRun held es

/-- Every native call of the trace happens while the lock is held. -/
def nativeUnderLock : Bool → List Event → Bool
  | _, [] => true
  | _, Event.lockRepository :: es => nativeUnderLock true es
  | _, Event.unlockRepository :: es => nativeUnderLock false es
  | held, e :: es => (!e.isNative || held) && nativeUnderLock held es

/-- The completions delivered along a trace: handler, error, value. -/
def completions : List Event → List (Nat × JsValue × JsValue)
  | [] => []
  | Event.TRIGGER_CALLBACK c e v :: es => (c, e, v) :: completions es
  | Event.factoryCallback c e v :: es => (c, e, v) :: completions es
  | _ :: es => completions es

/-- The reference count of the index proxy at each moment a completion handler
runs, given the count `refs` at the start of the trace. -/
def refsSeenByHandler : Nat → List Event → List Nat
  | _, [] => []
  | refs, Event.Ref :: es => refsSeenByHandler (refs + 1) es
  | refs, Event.Unref :: es => refsSeenByHandler (refs - 1) es
  | refs, Event.TRIGGER_CALLBACK _ _ _ :: es => refs :: refsSeenByHandler refs es
  | refs, Event.factoryCallback _ _ _ :: es => refs :: refsSeenByHandler refs es
  | refs, _ :: es => refsSeenByHandler refs es

/-- The pin is in place whenever a completion handler runs: the count it sees
is the count `pinned` that the submission left. -/
def pinHeldWhileHandlerRuns (pinned : Nat) (trace : List Event) : Bool :=
  (refsSeenByHandler pinned trace).all (fun n => n == pinned)

/-- A native library whose index `7` holds five entries, `100 .. 104`. -/
def git5 : GitLib :=
  { GIT_SUCCESS := 0,
    GIT_EBAREINDEX := -15,
    git_index_get := fun index n =>
      if index = some 7 ∧ 0 ≤ n ∧ n < 5 then some (100 + n.toNat) else none,
    git_repository_index := fun _ => (0, some 7),
    git_index_open_bare := fun _ => (0, some 7),
    git_index_entrycount := fun _ => 5 }

/-- The same index after nine entries were added to it. -/
def git14 : GitLib :=
  { git5 with
    git_index_get := fun index n =>
      if index = some 7 ∧ 0 ≤ n ∧ n < 14 then some (100 + n.toNat) else none,
    git_index_entrycount := fun _ => 14 }

/-- An index proxy just constructed (`Index::Index`, `setOwner`), not yet
loaded. -/
def fresh : State :=
  { repository_ := { repo_ := 1, path_ := "/repo/.git" },
    index_ := none,
    entryCount_ := 0,
    initError_ := 0,
    refs_ := 0,
    lengthProperty := none,
    entryFactory_ := { objects := [], nextId := 0 },
    evRefs := 0,
    queue := [],
    finished := [],
    released := false }

/-- The proxy after its initial load against `git5`. -/
def loaded5 : State :=
  Index.processInitData (Index.loadInitData git5 fresh).state (Index.loadInitData git5 fresh).ret

/-- Modelled from the spec: the teardown of the owning Session
(`Repository::close`, declared at repository.h:90; repository.cc is not among
the sources): "the Session must first invalidate all dependent ProxyObjects
still pointing at its root (marking them stale), then release the root
NativeHandle".  The index proxy stays reachable from the host; its native index
goes with the root handle. -/
def Repository.close (s : State) : State :=
  { s with released := true }

/-- The proxy `loaded5`, still held by the host, after its Session has torn
down. -/
def tornDown : State :=
  Repository.close loaded5

/-- A native library whose index `7` holds 2^31 + 1 entries. -/
def gitBig : GitLib :=
  { git5 with
    git_index_get := fun index n =>
      if index = some 7 ∧ 0 ≤ n ∧ n < 2147483649 then some 100 else none,
    git_index_entrycount := fun _ => 2147483649 }

/-- The proxy after its initial load against `gitBig`. -/
def loadedBig : State :=
  Index.processInitData (Index.loadInitData gitBig fresh).state
    (Index.loadInitData gitBig fresh).ret

/-- A native library whose index `7` reports 2^32 - 1 entries. -/
def gitFull : GitLib :=
  { git5 with git_index_entrycount := fun _ => 4294967295 }

/-! ## Lemmas on the argument checks and the entry cache -/

theorem IsInt32_iff (i : Int) :
    (JsValue.int i).IsInt32 = true ↔ (-2147483648 ≤ i ∧ i ≤ 2147483647) := by
  simp [JsValue.IsInt32]

theorem GetEntry_sync_found (git : GitLib) (s : State) (i : Int) (e : Handle)
    (hi : (JsValue.int i).IsInt32 = true) (he : git.git_index_get s.index_ i = some e) :
    Index.GetEntry git s [JsValue.int i] =
      { ret := Except.ok (JsValue.object (s.entryFactory_.syncRequestObject e).1.id),
        state := { s with entryFactory_ := (s.entryFactory_.syncRequestObject e).2 },
        trace := [Event.lockRepository, Event.git_index_get s.index_ i,
          Event.unlockRepository, Event.syncRequestObject e] } := by
  simp [Index.GetEntry, REQ_ARGS, REQ_INT_ARG, HAS_CALLBACK_ARG, hi, he, JsValue.IsFunction]

theorem GetEntry_sync_missing (git : GitLib) (s : State) (i : Int)
    (hi : (JsValue.int i).IsInt32 = true) (he : git.git_index_get s.index_ i = none) :
    Index.GetEntry git s [JsValue.int i] =
      { ret := Except.error (JsException.Error "Invalid entry."),
        state := s,
        trace := [Event.lockRepository, Event.git_index_get s.index_ i,
          Event.unlockRepository] } := by
  simp [Index.GetEntry, REQ_ARGS, REQ_INT_ARG, HAS_CALLBACK_ARG, hi, he, JsValue.IsFunction]

theorem GetEntry_not_int32 (git : GitLib) (s : State) (i : Int)
    (hi : (JsValue.int i).IsInt32 = false) :
    Index.GetEntry git s [JsValue.int i] =
      { ret := Except.error JsException.TypeError, state := s, trace := [] } := by
  simp [Index.GetEntry, REQ_ARGS, REQ_INT_ARG, hi]

theorem GetEntry_async_submit (git : GitLib) (s : State) (i : Int) (callback : Nat)
    (hi : (JsValue.int i).IsInt32 = true) :
    Index.GetEntry git s [JsValue.int i, JsValue.function callback] =
      { ret := Except.ok JsValue.undefined,
        state := { s with refs_ := s.refs_ + 1,
                          queue := s.queue ++ [⟨callback, i, none⟩],
                          evRefs := s.evRefs + 1 },
        trace := [Event.Ref, Event.eio_custom ⟨callback, i, none⟩, Event.ev_ref] } := by
  simp [Index.GetEntry, REQ_ARGS, REQ_INT_ARG, HAS_CALLBACK_ARG, REQ_FUN_ARG, hi,
    JsValue.IsFunction]

/-- Get-or-create: resolving a handle again returns the proxy of the first
resolve and leaves the cache as the first resolve left it. -/
theorem syncRequestObject_again (f : ObjectFactory) (e : Handle) :
    (f.syncRequestObject e).2.syncRequestObject e = f.syncRequestObject e := by
  unfold ObjectFactory.syncRequestObject
  cases h : f.objects.lookup e with
  | some id => simp [h]
  | none => simp [List.lookup]

theorem git5_holds_five (n : Int) :
    git5.git_index_get loaded5.index_ n = none ↔ (n < 0 ∨ ((5 : Nat) : Int) ≤ n) := by
  have h7 : loaded5.index_ = some 7 := by decide
  simp only [git5, h7]
  constructor
  · intro h
    by_contra hc
    push_neg at hc
    simp [hc.1] at h
    omega
  · intro h
    have : ¬ (0 ≤ n ∧ n < 5) := by omega
    simp [this]

theorem gitBig_holds (n : Int) :
    gitBig.git_index_get loadedBig.index_ n = none ↔
      (n < 0 ∨ ((2147483649 : Nat) : Int) ≤ n) := by
  have h7 : loadedBig.index_ = some 7 := by decide
  simp only [gitBig, h7]
  constructor
  · intro h
    by_contra hc
    push_neg at hc
    simp [hc.1] at h
    omega
  · intro h
    have : ¬ (0 ≤ n ∧ n < 2147483649) := by omega
    simp [this]

theorem unsignedToInt_of_lt (n : Nat) (h : n < 2147483648) : unsignedToInt n = (n : Int) := by
  have hmod : n % 4294967296 = n := Nat.mod_eq_of_lt (by omega)
  simp [unsignedToInt, hmod, h]

/-- The first two calls of a synchronous `getEntry` with an `int` position, and
the calls of the worker step: the lock, then the native lookup on the stored
handle. -/
theorem getEntry_begins_with_lookup (git : GitLib) (s : State) (i : Int)
    (request : entry_request) (hi : (JsValue.int i).IsInt32 = true) :
    (Index.GetEntry git s [JsValue.int i]).trace.take 2 =
      [Event.lockRepository, Event.git_index_get s.index_ i] ∧
    (Index.GetEntry git s [JsValue.int i]).trace.any (Event.usesIndex s.index_) = true ∧
    (Index.EIO_GetEntry git s request).trace =
      [Event.lockRepository, Event.git_index_get s.index_ request.index,
        Event.unlockRepository] ∧
    (Index.EIO_GetEntry git s request).trace.any (Event.usesIndex s.index_) = true := by
  refine ⟨?_, ?_, by simp [Index.EIO_GetEntry],
    by simp [Index.EIO_GetEntry, Event.usesIndex]⟩
  · cases he : git.git_index_get s.index_ i with
    | none => rw [GetEntry_sync_missing git s i hi he]; rfl
    | some e => rw [GetEntry_sync_found git s i e hi he]; rfl
  · cases he : git.git_index_get s.index_ i with
    | none => rw [GetEntry_sync_missing git s i hi he]; simp [Event.usesIndex]
    | some e => rw [GetEntry_sync_found git s i e hi he]; simp [Event.usesIndex]

/-! ## Bounds of the synchronous `getEntry` -/

/-- C1, as stated, fails: on an index proxy whose native index holds
2^31 + 1 entries (the native lookup is null exactly outside `[0, 2^31 + 1)`),
the position `i = 2^31` satisfies `0 ≤ i < E`, yet the synchronous `getEntry(i)`
raises: the position does not fit the `int` it is read into. -/
theorem GetEntry_sync_position_beyond_int_raises :
    (∀ n : Int, gitBig.git_index_get loadedBig.index_ n = none ↔
      (n < 0 ∨ ((2147483649 : Nat) : Int) ≤ n)) ∧
    ((0 : Int) ≤ 2147483648 ∧ (2147483648 : Int) < ((2147483649 : Nat) : Int)) ∧
    (Index.GetEntry gitBig loadedBig [JsValue.int 2147483648]).ret =
      Except.error JsException.TypeError :=
  ⟨gitBig_holds, by decide, by rfl⟩

/-- C1, amended: on an index proxy whose native index holds `E` entries (the
native lookup returns a null entry exactly for the positions outside `[0, E)`),
for every integer `i`, the synchronous `getEntry(i)` returns an entry proxy when
`0 ≤ i < E` and `i` fits an `int` (`i ≤ 2^31 - 1`), and raises an error when
`i < 0`, `i ≥ E` or `i > 2^31 - 1`. -/
theorem GetEntry_sync_bounds (git : GitLib) (s : State) (E : Nat) (i : Int)
    (hget : ∀ n : Int, git.git_index_get s.index_ n = none ↔ (n < 0 ∨ (E : Int) ≤ n)) :
    ((0 ≤ i ∧ i < (E : Int) ∧ i ≤ 2147483647) →
      ∃ e, git.git_index_get s.index_ i = some e ∧
        (Index.GetEntry git s [JsValue.int i]).ret =
          Except.ok (JsValue.object (s.entryFactory_.syncRequestObject e).1.id)) ∧
    ((i < 0 ∨ (E : Int) ≤ i ∨ 2147483647 < i) →
      ∃ err, (Index.GetEntry git s [JsValue.int i]).ret = Except.error err) := by
  constructor
  · intro hin
    have hi : (JsValue.int i).IsInt32 = true := (IsInt32_iff i).2 (by omega)
    cases he : git.git_index_get s.index_ i with
    | none =>
      have := (hget i).1 he
      omega
    | some e =>
      exact ⟨e, rfl, by rw [GetEntry_sync_found git s i e hi he]⟩
  · intro hout
    cases hi : (JsValue.int i).IsInt32 with
    | false =>
      exact ⟨JsException.TypeError, by rw [GetEntry_not_int32 git s i hi]⟩
    | true =>
      have hrange := (IsInt32_iff i).1 hi
      have he := (hget i).2 (by omega)
      exact ⟨JsException.Error "Invalid entry.", by rw [GetEntry_sync_missing git s i hi he]⟩

/-- C1, amended, on the index of five entries: `getEntry(0)` and `getEntry(4)`
return a proxy, `getEntry(5)` raises; and on the index of 2^31 + 1 entries
`getEntry(3)` returns a proxy. -/
theorem GetEntry_sync_bounds_witness :
    (∀ n : Int, git5.git_index_get loaded5.index_ n = none ↔ (n < 0 ∨ ((5 : Nat) : Int) ≤ n)) ∧
    (∃ e, git5.git_index_get loaded5.index_ 0 = some e ∧
      (Index.GetEntry git5 loaded5 [JsValue.int 0]).ret =
        Except.ok (JsValue.object (loaded5.entryFactory_.syncRequestObject e).1.id)) ∧
    (∃ e, git5.git_index_get loaded5.index_ 4 = some e ∧
      (Index.GetEntry git5 loaded5 [JsValue.int 4]).ret =
        Except.ok (JsValue.object (loaded5.entryFactory_.syncRequestObject e).1.id)) ∧
    (∃ err, (Index.GetEntry git5 loaded5 [JsValue.int 5]).ret = Except.error err) ∧
    (∃ e, gitBig.git_index_get loadedBig.index_ 3 = some e ∧
      (Index.GetEntry gitBig loadedBig [JsValue.int 3]).ret =
        Except.ok (JsValue.object (loadedBig.entryFactory_.syncRequestObject e).1.id)) :=
  ⟨git5_holds_five,
    (GetEntry_sync_bounds git5 loaded5 5 0 git5_holds_five).1 (by decide),
    (GetEntry_sync_bounds git5 loaded5 5 4 git5_holds_five).1 (by decide),
    (GetEntry_sync_bounds git5 loaded5 5 5 git5_holds_five).2 (by decide),
    (GetEntry_sync_bounds gitBig loadedBig 2147483649 3 gitBig_holds).1 (by decide)⟩

/-! ## The asynchronous job against the synchronous call -/

/-- C2: for every state, native index and position `i`, the job (worker step
then completion step) delivers one completion `(error, value)` in which exactly
one of the two is non-empty; it is the error, with a null value, exactly when
the synchronous `getEntry(i)` on the same state raises, and it is a proxy with
no error exactly when the synchronous call returns that proxy. -/
theorem async_getEntry_agrees_with_sync (git : GitLib) (s : State) (i : Int) (callback : Nat)
    (hi : (JsValue.int i).IsInt32 = true) :
    ∃ err val,
      completions (Index.runJob git s ⟨callback, i, none⟩).trace = [(callback, err, val)] ∧
      err.isEmpty = !val.isEmpty ∧
      ((∃ e, (Index.GetEntry git s [JsValue.int i]).ret = Except.error e) ↔
        (err.isEmpty = false ∧ val = JsValue.null)) ∧
      (∀ p, (Index.GetEntry git s [JsValue.int i]).ret = Except.ok p ↔
        (err = JsValue.null ∧ val = p)) := by
  cases he : git.git_index_get s.index_ i with
  | none =>
    refine ⟨JsValue.error "Couldn't get index entry.", JsValue.null, ?_, ?_, ?_, ?_⟩
    · simp [Index.runJob, Index.EIO_GetEntry, Index.EIO_AfterGetEntry, he, completions]
    · rfl
    · rw [GetEntry_sync_missing git s i hi he]
      simp [JsValue.isEmpty]
    · intro p
      rw [GetEntry_sync_missing git s i hi he]
      simp
  | some e =>
    refine ⟨JsValue.null, JsValue.object (s.entryFactory_.syncRequestObject e).1.id,
      ?_, ?_, ?_, ?_⟩
    · simp [Index.runJob, Index.EIO_GetEntry, Index.EIO_AfterGetEntry, he, completions,
        ObjectFactory.asyncRequestObject]
    · rfl
    · rw [GetEntry_sync_found git s i e hi he]
      simp [JsValue.isEmpty]
    · intro p
      rw [GetEntry_sync_found git s i e hi he]
      simp

/-- C2, on the index of five entries: the job for position 0 delivers
`(null, proxy 0)` as the synchronous call returns proxy 0, and the job for
position 5 delivers an error and a null value as the synchronous call raises. -/
theorem async_getEntry_agrees_with_sync_witness :
    (JsValue.int 0).IsInt32 = true ∧ (JsValue.int 5).IsInt32 = true ∧
    completions (Index.runJob git5 loaded5 ⟨1, 0, none⟩).trace =
      [(1, JsValue.null, JsValue.object 0)] ∧
    (Index.GetEntry git5 loaded5 [JsValue.int 0]).ret = Except.ok (JsValue.object 0) ∧
    completions (Index.runJob git5 loaded5 ⟨2, 5, none⟩).trace =
      [(2, JsValue.error "Couldn't get index entry.", JsValue.null)] ∧
    (∃ err val,
      completions (Index.runJob git5 loaded5 ⟨1, 0, none⟩).trace = [(1, err, val)] ∧
      err.isEmpty = !val.isEmpty ∧
      ((∃ e, (Index.GetEntry git5 loaded5 [JsValue.int 0]).ret = Except.error e) ↔
        (err.isEmpty = false ∧ val = JsValue.null)) ∧
      (∀ p, (Index.GetEntry git5 loaded5 [JsValue.int 0]).ret = Except.ok p ↔
        (err = JsValue.null ∧ val = p))) :=
  ⟨by decide, by decide, by decide, by rfl, by decide,
    async_getEntry_agrees_with_sync git5 loaded5 0 1 (by decide)⟩

/-! ## Completion exactness -/

/-- The four ways a call of `getEntry` ends: an argument error with no effect,
a submitted job, a failed lookup, a resolved proxy. -/
theorem GetEntry_cases (git : GitLib) (s : State) (args : List JsValue) :
    (∃ err, Index.GetEntry git s args = { ret := Except.error err, state := s, trace := [] }) ∨
    (∃ request, Index.GetEntry git s args =
      { ret := Except.ok JsValue.undefined,
        state := { s with refs_ := s.refs_ + 1,
                          queue := s.queue ++ [request],
                          evRefs := s.evRefs + 1 },
        trace := [Event.Ref, Event.eio_custom request, Event.ev_ref] }) ∨
    (∃ n, Index.GetEntry git s args =
      { ret := Except.error (JsException.Error "Invalid entry."),
        state := s,
        trace := [Event.lockRepository, Event.git_index_get s.index_ n,
          Event.unlockRepository] }) ∨
    (∃ n e, Index.GetEntry git s args =
      { ret := Except.ok (JsValue.object (s.entryFactory_.syncRequestObject e).1.id),
        state := { s with entryFactory_ := (s.entryFactory_.syncRequestObject e).2 },
        trace := [Event.lockRepository, Event.git_index_get s.index_ n,
          Event.unlockRepository, Event.syncRequestObject e] }) := by
  unfold Index.GetEntry
  cases h1 : REQ_ARGS 1 args with
  | some err => exact Or.inl ⟨err, rfl⟩
  | none =>
    cases h2 : REQ_INT_ARG 0 args with
    | error err => exact Or.inl ⟨err, rfl⟩
    | ok indexArg =>
      cases h3 : HAS_CALLBACK_ARG args with
      | true =>
        cases h4 : REQ_FUN_ARG (args.length - 1) args with
        | error err => exact Or.inl ⟨err, by simp⟩
        | ok callbackArg => exact Or.inr (Or.inl ⟨⟨callbackArg, indexArg, none⟩, by simp⟩)
      | false =>
        cases h5 : git.git_index_get s.index_ indexArg with
        | none => exact Or.inr (Or.inr (Or.inl ⟨indexArg, by simp [h5]⟩))
        | some e => exact Or.inr (Or.inr (Or.inr ⟨indexArg, e, by simp [h5]⟩))

/-- No call of `getEntry`, whatever its arguments, invokes a completion handler
or hands one to the entry cache. -/
theorem GetEntry_invokes_no_handler (git : GitLib) (s : State) (args : List JsValue)
    (c : Nat) :
    (Index.GetEntry git s args).trace.countP (Event.isInvocation c) = 0 ∧
    (Index.GetEntry git s args).trace.countP (Event.isHandOff c) = 0 := by
  rcases GetEntry_cases git s args with ⟨err, h⟩ | ⟨request, h⟩ | ⟨n, h⟩ | ⟨n, e, h⟩ <;>
    rw [h] <;> simp [List.countP_cons, Event.isInvocation, Event.isHandOff]

/-- C3: the completion handler of a job fires exactly once.  The submitting
call and the worker step never invoke or hand off a handler; the completion
step either triggers the request's handler once itself or hands it once to the
entry cache, never both and never neither; along the whole life of a job
(submission, worker step, completion step) the handler is invoked exactly once
when the job was submitted, and no other handler is invoked. -/
theorem completion_fires_exactly_once (git gitWorker gitAfter : GitLib) (s : State)
    (args : List JsValue) (request : entry_request) (c : Nat) (i : Int) :
    (Index.GetEntry git s args).trace.countP (Event.isInvocation c) = 0 ∧
    (Index.GetEntry git s args).trace.countP (Event.isHandOff c) = 0 ∧
    (Index.EIO_GetEntry git s request).trace.countP (Event.isInvocation c) = 0 ∧
    (Index.EIO_GetEntry git s request).trace.countP (Event.isHandOff c) = 0 ∧
    (Index.EIO_AfterGetEntry s request).trace.countP (Event.isDirectTrigger request.callback) +
      (Index.EIO_AfterGetEntry s request).trace.countP (Event.isHandOff request.callback) = 1 ∧
    (Index.EIO_AfterGetEntry s request).trace.countP (Event.isInvocation c) =
      (if c = request.callback then 1 else 0) ∧
    (Index.runJob git s request).trace.countP (Event.isInvocation c) =
      (if c = request.callback then 1 else 0) ∧
    (run s [(git, Op.GetEntry [JsValue.int i, JsValue.function c]),
            (gitWorker, Op.EIO_GetEntry s.queue.length),
            (gitAfter, Op.EIO_AfterGetEntry s.finished.length)]).2.countP
        (Event.isInvocation c) =
      (if (JsValue.int i).IsInt32 then 1 else 0) := by
  have hafter : ∀ (t : State) (r : entry_request),
      (Index.EIO_AfterGetEntry t r).trace.countP (Event.isInvocation c) =
        (if c = r.callback then 1 else 0) := by
    intro t r
    unfold Index.EIO_AfterGetEntry
    cases r.entry with
    | none =>
      by_cases hc : c = r.callback
      · simp [List.countP_cons, Event.isInvocation, hc]
      · have hc2 : ¬ r.callback = c := fun h => hc h.symm
        simp [List.countP_cons, Event.isInvocation, hc, hc2]
    | some e =>
      by_cases hc : c = r.callback
      · simp [List.countP_cons, Event.isInvocation, hc, ObjectFactory.asyncRequestObject]
      · have hc2 : ¬ r.callback = c := fun h => hc h.symm
        simp [List.countP_cons, Event.isInvocation, hc, hc2,
          ObjectFactory.asyncRequestObject]
  refine ⟨(GetEntry_invokes_no_handler git s args c).1,
    (GetEntry_invokes_no_handler git s args c).2, ?_, ?_, ?_, hafter s request, ?_, ?_⟩
  · simp [Index.EIO_GetEntry, List.countP_cons, Event.isInvocation]
  · simp [Index.EIO_GetEntry, List.countP_cons, Event.isHandOff]
  · unfold Index.EIO_AfterGetEntry
    cases request.entry with
    | none => simp [List.countP_cons, Event.isDirectTrigger, Event.isHandOff]
    | some e =>
      simp [List.countP_cons, Event.isDirectTrigger, Event.isHandOff,
        ObjectFactory.asyncRequestObject]
  · have hw : (Index.EIO_GetEntry git s request).trace.countP (Event.isInvocation c) = 0 := by
      simp [Index.EIO_GetEntry, List.countP_cons, Event.isInvocation]
    have hcb : (Index.EIO_GetEntry git s request).ret.callback = request.callback := rfl
    simp only [Index.runJob, List.countP_append, hw, hafter, hcb, Nat.zero_add]
  · cases hi : (JsValue.int i).IsInt32 with
    | false =>
      have hsub : Index.GetEntry git s [JsValue.int i, JsValue.function c] =
          { ret := Except.error JsException.TypeError, state := s, trace := [] } := by
        simp [Index.GetEntry, REQ_ARGS, REQ_INT_ARG, hi]
      simp [run, step, hsub]
    | true =>
      simp only [run, step, GetEntry_async_submit git s i c hi, List.getElem?_concat_length,
        List.append_nil, List.countP_append, hafter]
      simp [Index.EIO_GetEntry, List.countP_cons, Event.isInvocation]

/-! ## The pin on the index proxy -/

/-- C4, as stated, fails: on the loaded proxy the submission of a job raises
the reference count from 0 to 1, and the completion handler of that job, found
entry or missing entry alike, runs when the count is already back at 0: the pin
is not in place while the handler runs. -/
theorem pin_dropped_before_handler_runs :
    loaded5.refs_ = 0 ∧
    (Index.GetEntry git5 loaded5 [JsValue.int 0, JsValue.function 1]).state.refs_ = 1 ∧
    refsSeenByHandler 1
      (Index.runJob git5
        (Index.GetEntry git5 loaded5 [JsValue.int 0, JsValue.function 1]).state
        ⟨1, 0, none⟩).trace = [0] ∧
    pinHeldWhileHandlerRuns 1
      (Index.runJob git5
        (Index.GetEntry git5 loaded5 [JsValue.int 0, JsValue.function 1]).state
        ⟨1, 0, none⟩).trace = false ∧
    pinHeldWhileHandlerRuns 1
      (Index.runJob git5
        (Index.GetEntry git5 loaded5 [JsValue.int 5, JsValue.function 2]).state
        ⟨2, 5, none⟩).trace = false := by
  decide

/-- C4, amended: the pin is taken at submission and released at the start of
the completion step.  `getEntry` with a position and a handler raises the
reference count by exactly one, before the job is queued; the worker step
leaves it raised; the completion step lowers it by exactly one, once, before
the handler is triggered or handed to the entry cache, so the handler runs with
the count back at its value before submission, which is also its final value. -/
theorem pin_taken_at_submission_released_before_handler (git gitWorker : GitLib) (s : State)
    (i : Int) (callback : Nat) (hi : (JsValue.int i).IsInt32 = true) :
    (Index.GetEntry git s [JsValue.int i, JsValue.function callback]).trace =
      [Event.Ref, Event.eio_custom ⟨callback, i, none⟩, Event.ev_ref] ∧
    (Index.GetEntry git s [JsValue.int i, JsValue.function callback]).state.refs_ =
      s.refs_ + 1 ∧
    (Index.EIO_GetEntry gitWorker
      (Index.GetEntry git s [JsValue.int i, JsValue.function callback]).state
      ⟨callback, i, none⟩).state.refs_ = s.refs_ + 1 ∧
    (Index.EIO_AfterGetEntry
      (Index.GetEntry git s [JsValue.int i, JsValue.function callback]).state
      (Index.EIO_GetEntry gitWorker
        (Index.GetEntry git s [JsValue.int i, JsValue.function callback]).state
        ⟨callback, i, none⟩).ret).trace.take 2 = [Event.ev_unref, Event.Unref] ∧
    (Index.runJob gitWorker
      (Index.GetEntry git s [JsValue.int i, JsValue.function callback]).state
      ⟨callback, i, none⟩).trace.count Event.Unref = 1 ∧
    refsSeenByHandler (s.refs_ + 1)
      (Index.runJob gitWorker
        (Index.GetEntry git s [JsValue.int i, JsValue.function callback]).state
        ⟨callback, i, none⟩).trace = [s.refs_] ∧
    (Index.runJob gitWorker
      (Index.GetEntry git s [JsValue.int i, JsValue.function callback]).state
      ⟨callback, i, none⟩).state.refs_ = s.refs_ := by
  rw [GetEntry_async_submit git s i callback hi]
  refine ⟨rfl, rfl, rfl, ?_, ?_, ?_, ?_⟩
  · cases he : gitWorker.git_index_get s.index_ i <;>
      simp [Index.EIO_GetEntry, Index.EIO_AfterGetEntry, he]
  · cases he : gitWorker.git_index_get s.index_ i <;>
      simp [Index.runJob, Index.EIO_GetEntry, Index.EIO_AfterGetEntry, he,
        ObjectFactory.asyncRequestObject, List.count_cons]
  · cases he : gitWorker.git_index_get s.index_ i <;>
      simp [Index.runJob, Index.EIO_GetEntry, Index.EIO_AfterGetEntry, he,
        ObjectFactory.asyncRequestObject, refsSeenByHandler]
  · cases he : gitWorker.git_index_get s.index_ i <;>
      simp [Index.runJob, Index.EIO_GetEntry, Index.EIO_AfterGetEntry, he]

/-- C4, amended, on the loaded proxy: a job for position 0 takes the count
from 0 to 1 and its handler runs with the count at 0. -/
theorem pin_taken_at_submission_released_before_handler_witness :
    (JsValue.int 0).IsInt32 = true ∧
    (Index.GetEntry git5 loaded5 [JsValue.int 0, JsValue.function 1]).state.refs_ =
      loaded5.refs_ + 1 ∧
    refsSeenByHandler (loaded5.refs_ + 1)
      (Index.runJob git14
        (Index.GetEntry git5 loaded5 [JsValue.int 0, JsValue.function 1]).state
        ⟨1, 0, none⟩).trace = [loaded5.refs_] ∧
    (Index.runJob git14
      (Index.GetEntry git5 loaded5 [JsValue.int 0, JsValue.function 1]).state
      ⟨1, 0, none⟩).state.refs_ = loaded5.refs_ :=
  ⟨by decide,
    (pin_taken_at_submission_released_before_handler git5 git14 loaded5 0 1 (by decide)).2.1,
    (pin_taken_at_submission_released_before_handler git5 git14 loaded5 0 1
      (by decide)).2.2.2.2.2.1,
    (pin_taken_at_submission_released_before_handler git5 git14 loaded5 0 1
      (by decide)).2.2.2.2.2.2⟩

/-! ## Malformed calls -/

/-- C5: a call of `getEntry` with no argument, or with a first argument that is
not an integer, raises at the call site and does nothing else, with or without
a trailing handler: the state is unchanged (no job queued, reference count as
before) and the call makes no call at all (no handler invoked, lock never
taken). -/
theorem GetEntry_malformed_no_effect (git : GitLib) (s : State) (args : List JsValue)
    (h : ∀ v, args[0]? = some v → v.IsInt32 = false) :
    Index.GetEntry git s args =
      { ret := Except.error JsException.TypeError, state := s, trace := [] } := by
  unfold Index.GetEntry
  cases args with
  | nil => simp [REQ_ARGS]
  | cons v rest =>
    have hv : v.IsInt32 = false := h v (by simp)
    cases v with
    | int n =>
      simp [REQ_ARGS, REQ_INT_ARG, hv]
    | _ => simp [REQ_ARGS, REQ_INT_ARG]

/-- C5, on the loaded proxy: no argument; a handler alone; a non-integer and a
handler; a number beyond `int` and a handler. -/
theorem GetEntry_malformed_no_effect_witness :
    (∀ v, ([] : List JsValue)[0]? = some v → v.IsInt32 = false) ∧
    Index.GetEntry git5 loaded5 [] =
      { ret := Except.error JsException.TypeError, state := loaded5, trace := [] } ∧
    Index.GetEntry git5 loaded5 [JsValue.function 1] =
      { ret := Except.error JsException.TypeError, state := loaded5, trace := [] } ∧
    Index.GetEntry git5 loaded5 [JsValue.other, JsValue.function 1] =
      { ret := Except.error JsException.TypeError, state := loaded5, trace := [] } ∧
    Index.GetEntry git5 loaded5 [JsValue.int 2147483648, JsValue.function 1] =
      { ret := Except.error JsException.TypeError, state := loaded5, trace := [] } :=
  ⟨by simp,
    GetEntry_malformed_no_effect git5 loaded5 [] (by simp),
    GetEntry_malformed_no_effect git5 loaded5 [JsValue.function 1]
      (by intro v hv; simp at hv; subst hv; rfl),
    GetEntry_malformed_no_effect git5 loaded5 [JsValue.other, JsValue.function 1]
      (by intro v hv; simp at hv; subst hv; rfl),
    GetEntry_malformed_no_effect git5 loaded5 [JsValue.int 2147483648, JsValue.function 1]
      (by intro v hv; simp at hv; subst hv; decide)⟩

/-! ## Stale proxies -/

/-- C6, as stated, fails: on the index proxy whose Session has torn down, the
synchronous `getEntry(0)` and the worker step of a job for position 0 do call
the native library on the released handle, whatever the library answers: both
begin with the lock and `git_index_get` on that handle, with no test of the
proxy before it. -/
theorem getEntry_after_teardown_calls_native :
    tornDown.released = true ∧
    (∀ git : GitLib,
      (Index.GetEntry git tornDown [JsValue.int 0]).trace.take 2 =
        [Event.lockRepository, Event.git_index_get tornDown.index_ 0]) ∧
    (∀ git : GitLib,
      callsNativeOnReleased tornDown
        (Index.GetEntry git tornDown [JsValue.int 0]).trace = true) ∧
    (∀ git : GitLib,
      callsNativeOnReleased tornDown
        (Index.EIO_GetEntry git tornDown ⟨1, 0, none⟩).trace = true) := by
  have hrel : tornDown.released = true := by decide
  refine ⟨hrel, ?_, ?_, ?_⟩
  · intro git
    exact (getEntry_begins_with_lookup git tornDown 0 ⟨1, 0, none⟩ (by decide)).1
  · intro git
    simp only [callsNativeOnReleased, hrel, Bool.true_and]
    exact (getEntry_begins_with_lookup git tornDown 0 ⟨1, 0, none⟩ (by decide)).2.1
  · intro git
    simp only [callsNativeOnReleased, hrel, Bool.true_and]
    exact (getEntry_begins_with_lookup git tornDown 0 ⟨1, 0, none⟩ (by decide)).2.2.2

/-- C6, amended: after the owning Session has torn down, or the native index of
the proxy has been released, the getEntry operations on that proxy make no
liveness check before they reach the native library: a synchronous `getEntry`
with an `int` position and the worker step of a job each begin by taking the
lock and calling `git_index_get` on the released handle.  What the library does
with that handle, and so what the operation returns, is left open. -/
theorem getEntry_on_released_proxy_reaches_native (git : GitLib) (s : State) (i : Int)
    (request : entry_request) (hrel : s.released = true)
    (hi : (JsValue.int i).IsInt32 = true) :
    (Index.GetEntry git s [JsValue.int i]).trace.take 2 =
      [Event.lockRepository, Event.git_index_get s.index_ i] ∧
    callsNativeOnReleased s (Index.GetEntry git s [JsValue.int i]).trace = true ∧
    (Index.EIO_GetEntry git s request).trace =
      [Event.lockRepository, Event.git_index_get s.index_ request.index,
        Event.unlockRepository] ∧
    callsNativeOnReleased s (Index.EIO_GetEntry git s request).trace = true := by
  have h := getEntry_begins_with_lookup git s i request hi
  refine ⟨h.1, ?_, h.2.2.1, ?_⟩
  · simp only [callsNativeOnReleased, hrel, Bool.true_and]
    exact h.2.1
  · simp only [callsNativeOnReleased, hrel, Bool.true_and]
    exact h.2.2.2

/-- C6, amended, on the proxy whose Session has torn down: `getEntry(4)` and the
worker step for position 4 take the lock and call the native lookup on the
released handle. -/
theorem getEntry_on_released_proxy_reaches_native_witness :
    tornDown.released = true ∧ (JsValue.int 4).IsInt32 = true ∧
    (Index.GetEntry git5 tornDown [JsValue.int 4]).trace.take 2 =
      [Event.lockRepository, Event.git_index_get tornDown.index_ 4] ∧
    callsNativeOnReleased tornDown
      (Index.EIO_GetEntry git5 tornDown ⟨2, 4, none⟩).trace = true :=
  ⟨by decide, by decide,
    (getEntry_on_released_proxy_reaches_native git5 tornDown 4 ⟨2, 4, none⟩
      (by decide) (by decide)).1,
    (getEntry_on_released_proxy_reaches_native git5 tornDown 4 ⟨2, 4, none⟩
      (by decide) (by decide)).2.2.2⟩

/-! ## Native calls and the repository lock -/

/-- The native calls of the synchronous `getEntry`, of the worker step and of
the initial load all happen while the lock is held. -/
theorem native_calls_under_lock (git : GitLib) (s : State) (args : List JsValue)
    (request : entry_request) :
    nativeUnderLock false (Index.GetEntry git s args).trace = true ∧
    nativeUnderLock false (Index.EIO_GetEntry git s request).trace = true ∧
    nativeUnderLock false (Index.loadInitData git s).trace = true := by
  refine ⟨?_, ?_, ?_⟩
  · rcases GetEntry_cases git s args with ⟨err, h⟩ | ⟨r, h⟩ | ⟨n, h⟩ | ⟨n, e, h⟩ <;>
      rw [h] <;> simp [nativeUnderLock, Event.isNative]
  · simp [Index.EIO_GetEntry, nativeUnderLock, Event.isNative]
  · unfold Index.loadInitData
    simp only []
    split_ifs <;> simp [nativeUnderLock, Event.isNative]

/-- C7, at the destructor: `Index::~Index` calls `git_index_free` on the index
and never takes the lock, so this native call is made outside the lock. -/
theorem destructor_frees_index_outside_lock (s : State) :
    (Index.destructor s).trace = [Event.notifyIndexDead, Event.git_index_free s.index_] ∧
    (Index.destructor s).trace.count Event.lockRepository = 0 ∧
    nativeUnderLock false (Index.destructor s).trace = false := by
  simp [Index.destructor, nativeUnderLock, Event.isNative, List.count_cons]

/-- C8: in the synchronous `getEntry` (and every other call of `getEntry`), in
the worker step and in the initial load, on every path, the lock is never taken
while held nor released while free, each `lockRepository` is followed by its
`unlockRepository` before the operation ends, and an operation that starts with
the lock free ends with the lock free. -/
theorem lock_released_on_every_path (git : GitLib) (s : State) (args : List JsValue)
    (request : entry_request) :
    lockRun false (Index.GetEntry git s args).trace = some false ∧
    (Index.GetEntry git s args).trace.count Event.lockRepository =
      (Index.GetEntry git s args).trace.count Event.unlockRepository ∧
    lockRun false (Index.EIO_GetEntry git s request).trace = some false ∧
    (Index.EIO_GetEntry git s request).trace.count Event.lockRepository =
      (Index.EIO_GetEntry git s request).trace.count Event.unlockRepository ∧
    lockRun false (Index.loadInitData git s).trace = some false ∧
    (Index.loadInitData git s).trace.count Event.lockRepository =
      (Index.loadInitData git s).trace.count Event.unlockRepository := by
  refine ⟨?_, ?_, ?_, ?_, ?_, ?_⟩
  · rcases GetEntry_cases git s args with ⟨err, h⟩ | ⟨r, h⟩ | ⟨n, h⟩ | ⟨n, e, h⟩ <;>
      rw [h] <;> simp [lockRun]
  · rcases GetEntry_cases git s args with ⟨err, h⟩ | ⟨r, h⟩ | ⟨n, h⟩ | ⟨n, e, h⟩ <;>
      rw [h] <;> simp [List.count_cons]
  · simp [Index.EIO_GetEntry, lockRun]
  · simp [Index.EIO_GetEntry, List.count_cons]
  · unfold Index.loadInitData
    simp only []
    split_ifs <;> simp [lockRun]
  · unfold Index.loadInitData
    simp only []
    split_ifs <;> simp [List.count_cons]

/-! ## Identity of entry proxies -/

/-- C9: two synchronous `getEntry(i)` calls on the same index proxy, with the
native index unchanged in between, end the same way: both resolve the entry the
native lookup returns through the proxy's entry cache, and when the first call
returns a proxy the second returns that very proxy, creating nothing. -/
theorem GetEntry_twice_same_proxy (git : GitLib) (s : State) (i : Int) :
    (Index.GetEntry git (Index.GetEntry git s [JsValue.int i]).state [JsValue.int i]).ret =
      (Index.GetEntry git s [JsValue.int i]).ret ∧
    (Index.GetEntry git (Index.GetEntry git s [JsValue.int i]).state [JsValue.int i]).state =
      (Index.GetEntry git s [JsValue.int i]).state ∧
    (Index.GetEntry git (Index.GetEntry git s [JsValue.int i]).state [JsValue.int i]).trace =
      (Index.GetEntry git s [JsValue.int i]).trace ∧
    (∀ e, (JsValue.int i).IsInt32 = true → git.git_index_get s.index_ i = some e →
      (Index.GetEntry git s [JsValue.int i]).ret =
        Except.ok (JsValue.object (s.entryFactory_.syncRequestObject e).1.id) ∧
      (Index.GetEntry git (Index.GetEntry git s [JsValue.int i]).state [JsValue.int i]).ret =
        Except.ok (JsValue.object (s.entryFactory_.syncRequestObject e).1.id) ∧
      (Index.GetEntry git s [JsValue.int i]).trace =
        [Event.lockRepository, Event.git_index_get s.index_ i, Event.unlockRepository,
          Event.syncRequestObject e]) := by
  have hfound : ∀ e, (JsValue.int i).IsInt32 = true → git.git_index_get s.index_ i = some e →
      Index.GetEntry git (Index.GetEntry git s [JsValue.int i]).state [JsValue.int i] =
        Index.GetEntry git s [JsValue.int i] := by
    intro e hi he
    rw [GetEntry_sync_found git s i e hi he]
    have he2 : git.git_index_get
        ({ s with entryFactory_ := (s.entryFactory_.syncRequestObject e).2 } : State).index_ i =
        some e := he
    simp only []
    rw [GetEntry_sync_found git _ i e hi he2]
    simp [syncRequestObject_again]
  cases hi : (JsValue.int i).IsInt32 with
  | false =>
    rw [GetEntry_not_int32 git s i hi, GetEntry_not_int32 git s i hi]
    simp
  | true =>
    cases he : git.git_index_get s.index_ i with
    | none =>
      rw [GetEntry_sync_missing git s i hi he, GetEntry_sync_missing git s i hi he]
      simp
    | some e =>
      rw [hfound e hi he]
      refine ⟨rfl, rfl, rfl, ?_⟩
      intro e2 _ he2
      cases he2
      rw [GetEntry_sync_found git s i e hi he]
      exact ⟨rfl, rfl, rfl⟩

/-- C9, on the index of five entries: `getEntry(0)` twice returns proxy 0 both
times, and the second call leaves the cache as the first left it. -/
theorem GetEntry_twice_same_proxy_witness :
    (Index.GetEntry git5 loaded5 [JsValue.int 0]).ret = Except.ok (JsValue.object 0) ∧
    (Index.GetEntry git5 (Index.GetEntry git5 loaded5 [JsValue.int 0]).state
      [JsValue.int 0]).ret = (Index.GetEntry git5 loaded5 [JsValue.int 0]).ret ∧
    (Index.GetEntry git5 (Index.GetEntry git5 loaded5 [JsValue.int 0]).state
      [JsValue.int 0]).ret =
        Except.ok (JsValue.object (loaded5.entryFactory_.syncRequestObject 100).1.id) :=
  ⟨by rfl, (GetEntry_twice_same_proxy git5 loaded5 0).1,
    ((GetEntry_twice_same_proxy git5 loaded5 0).2.2.2 100 (by decide) (by decide)).2.1⟩

/-! ## The entry count is a snapshot -/

/-- No getEntry operation writes the entry count or the `entryCount` property. -/
theorem step_keeps_entryCount (git : GitLib) (s : State) (op : Op) :
    (step git s op).1.entryCount_ = s.entryCount_ ∧
    (step git s op).1.lengthProperty = s.lengthProperty := by
  cases op with
  | GetEntry args =>
    simp only [step]
    rcases GetEntry_cases git s args with ⟨err, h⟩ | ⟨r, h⟩ | ⟨n, h⟩ | ⟨n, e, h⟩ <;>
      rw [h] <;> exact ⟨rfl, rfl⟩
  | EIO_GetEntry k =>
    simp only [step]
    cases s.queue[k]? with
    | none => exact ⟨rfl, rfl⟩
    | some request => exact ⟨rfl, rfl⟩
  | EIO_AfterGetEntry k =>
    simp only [step]
    cases s.finished[k]? with
    | none => exact ⟨rfl, rfl⟩
    | some request =>
      simp only [Index.EIO_AfterGetEntry]
      cases request.entry with
      | none => exact ⟨rfl, rfl⟩
      | some e => exact ⟨rfl, rfl⟩

/-- No schedule of getEntry operations writes the entry count or the
`entryCount` property. -/
theorem run_keeps_entryCount (ops : List (GitLib × Op)) (s : State) :
    (run s ops).1.entryCount_ = s.entryCount_ ∧
    (run s ops).1.lengthProperty = s.lengthProperty := by
  induction ops generalizing s with
  | nil => exact ⟨rfl, rfl⟩
  | cons head rest ih =>
    obtain ⟨git, op⟩ := head
    simp only [run]
    have h1 := step_keeps_entryCount git s op
    have h2 := ih (step git s op).1
    exact ⟨h2.1.trans h1.1, h2.2.trans h1.2⟩

/-- C10, as stated, fails: when the native library reports 2^32 - 1 entries
during the load, `loadInitData` succeeds and after `processInitData` the entry
count of the proxy is -1, not the native count; with 2^31 + 1 entries it is
-2147483647. -/
theorem entryCount_wraps_beyond_int :
    gitFull.git_index_entrycount (Index.loadInitData gitFull fresh).state.index_ =
      4294967295 ∧
    (Index.loadInitData gitFull fresh).ret = some ⟨-1⟩ ∧
    (Index.processInitData (Index.loadInitData gitFull fresh).state
      (Index.loadInitData gitFull fresh).ret).entryCount_ = -1 ∧
    (Index.processInitData (Index.loadInitData gitFull fresh).state
      (Index.loadInitData gitFull fresh).ret).entryCount_ ≠
      ((gitFull.git_index_entrycount (Index.loadInitData gitFull fresh).state.index_ : Nat) :
        Int) ∧
    loadedBig.entryCount_ = -2147483647 := by
  decide

/-- C10, amended: the entry count of the index proxy is a snapshot taken at its
initial load.  When `loadInitData` succeeds and `processInitData` runs on its
result, `entryCount_` and the `entryCount` property hold the count read during
the load, which is the native count whenever that count fits an `int` (is below
2^31), and they keep their value through every schedule of getEntry operations
(calls, worker steps, completion steps, in any number and order), whatever the
native library answers during those operations. -/
theorem entryCount_is_load_snapshot (git : GitLib) (s : State) (data : index_data)
    (ops : List (GitLib × Op))
    (hload : (Index.loadInitData git s).ret = some data) :
    (git.git_index_entrycount (Index.loadInitData git s).state.index_ < 2147483648 →
      data.entryCount =
        ((git.git_index_entrycount (Index.loadInitData git s).state.index_ : Nat) : Int)) ∧
    (Index.processInitData (Index.loadInitData git s).state
      (Index.loadInitData git s).ret).entryCount_ = data.entryCount ∧
    (Index.processInitData (Index.loadInitData git s).state
      (Index.loadInitData git s).ret).lengthProperty = some data.entryCount ∧
    (run (Index.processInitData (Index.loadInitData git s).state
      (Index.loadInitData git s).ret) ops).1.entryCount_ = data.entryCount ∧
    (run (Index.processInitData (Index.loadInitData git s).state
      (Index.loadInitData git s).ret) ops).1.lengthProperty = some data.entryCount := by
  have hproc : (Index.processInitData (Index.loadInitData git s).state
      (Index.loadInitData git s).ret).entryCount_ = data.entryCount ∧
      (Index.processInitData (Index.loadInitData git s).state
      (Index.loadInitData git s).ret).lengthProperty = some data.entryCount := by
    rw [hload]
    exact ⟨rfl, rfl⟩
  have hrun := run_keeps_entryCount ops (Index.processInitData (Index.loadInitData git s).state
      (Index.loadInitData git s).ret)
  refine ⟨?_, hproc.1, hproc.2, hrun.1.trans hproc.1, hrun.2.trans hproc.2⟩
  have hdata : data.entryCount =
      unsignedToInt (git.git_index_entrycount (Index.loadInitData git s).state.index_) := by
    revert hload
    unfold Index.loadInitData
    simp only []
    split_ifs <;> simp <;> intro h <;> rw [← h]
  intro hfit
  rw [hdata, unsignedToInt_of_lt _ hfit]

/-- C10, amended, on the proxy loaded with five entries: the count read is the
native count 5, and two overlapping jobs, submitted while the index has five
entries and run after it grew to fourteen, leave the entry count at 5 in either
completion order. -/
theorem entryCount_is_load_snapshot_witness :
    (Index.loadInitData git5 fresh).ret = some ⟨5⟩ ∧
    (5 : Int) = ((git5.git_index_entrycount (Index.loadInitData git5 fresh).state.index_ :
      Nat) : Int) ∧
    (run (Index.processInitData (Index.loadInitData git5 fresh).state
        (Index.loadInitData git5 fresh).ret)
      [(git5, Op.GetEntry [JsValue.int 0, JsValue.function 1]),
       (git5, Op.GetEntry [JsValue.int 9, JsValue.function 2]),
       (git14, Op.EIO_GetEntry 0), (git14, Op.EIO_GetEntry 0),
       (git14, Op.EIO_AfterGetEntry 0), (git14, Op.EIO_AfterGetEntry 0)]).1.entryCount_ = 5 ∧
    (run (Index.processInitData (Index.loadInitData git5 fresh).state
        (Index.loadInitData git5 fresh).ret)
      [(git5, Op.GetEntry [JsValue.int 0, JsValue.function 1]),
       (git5, Op.GetEntry [JsValue.int 9, JsValue.function 2]),
       (git14, Op.EIO_GetEntry 1), (git14, Op.EIO_GetEntry 0),
       (git14, Op.EIO_AfterGetEntry 0), (git14, Op.EIO_AfterGetEntry 0)]).1.entryCount_ = 5 :=
  ⟨by decide,
    (entryCount_is_load_snapshot git5 fresh ⟨5⟩ [] (by decide)).1 (by decide),
    (entryCount_is_load_snapshot git5 fresh ⟨5⟩
      [(git5, Op.GetEntry [JsValue.int 0, JsValue.function 1]),
       (git5, Op.GetEntry [JsValue.int 9, JsValue.function 2]),
       (git14, Op.EIO_GetEntry 0), (git14, Op.EIO_GetEntry 0),
       (git14, Op.EIO_AfterGetEntry 0), (git14, Op.EIO_AfterGetEntry 0)] (by decide)).2.2.2.1,
    (entryCount_is_load_snapshot git5 fresh ⟨5⟩
      [(git5, Op.GetEntry [JsValue.int 0, JsValue.function 1]),
       (git5, Op.GetEntry [JsValue.int 9, JsValue.function 2]),
       (git14, Op.EIO_GetEntry 1), (git14, Op.EIO_GetEntry 0),
       (git14, Op.EIO_AfterGetEntry 0), (git14, Op.EIO_AfterGetEntry 0)] (by decide)).2.2.2.1⟩

end Gitteh
